import Mathlib

/-!
Shallow embedding of the BlockCalls LiveKit server (`src/server.js`).

The server keeps an in-memory `Map` from room id to room record and exposes
HTTP handlers for creating, joining and leaving group rooms, for the two legs
of a peer-to-peer call, and for reading room info.  JS strings are modelled by
Lean `String` viewed as its character sequence (`String.data`); JS string
comparison, used by `Array.prototype.sort`, is lexicographic on the characters,
modelled by the `String` linear order.  Request-body fields are `Option String`
(`none` models an absent field, i.e. `undefined`).  The outbound LiveKit
token-issuance call (`generateToken`, which wraps the external SDK) is
modelled by an oracle `Except String String`: `.ok t` is the minted JWT `t`,
`.error m` is a thrown exception with message `m`; each handler also reports
the list of token requests it sent to the issuer.
-/

/-- Truthiness of an optional JS string field: `undefined` and the empty
string are falsy, every other string is truthy (this is what `!walletAddress`
tests in the handlers). -/
def jsTruthy : Option String → Bool
  | none => false
  | some s => !(s == "")

/-- JS `String.prototype.substring(start, stop)`: the characters of `s` with
index in `[start, stop)`.  Out-of-range bounds are clamped, so an identifier
shorter than `stop` is returned whole. -/
def jsSubstring (s : String) (start stop : Nat) : String :=
  String.mk ((s.data.take stop).drop start)

/-- JS `String.prototype.toUpperCase()`, characterwise (the identifiers in
play are ASCII). -/
def jsToUpperCase (s : String) : String :=
  String.mk (s.data.map Char.toUpper)

/-- JS `String.prototype.toLowerCase()`, characterwise. -/
def jsToLowerCase (s : String) : String :=
  String.mk (s.data.map Char.toLower)

/-- The character of a base-36 digit, as produced by JS
`Number.prototype.toString(36)`: `0`–`9` for digits below ten, then
`a`–`z`. -/
def base36Char (d : Fin 36) : Char :=
  if d.val < 10 then Char.ofNat (48 + d.val) else Char.ofNat (87 + d.val)

/-- Model of `Math.random().toString(36)`.  `Math.random()` draws a double in
`[0, 1)`; `toString(36)` prints `"0"` for the draw `0` and otherwise `"0."`
followed by the shortest base-36 digit sequence identifying the double (for
example the draw `0.5` prints `"0.i"`).  The draw is modelled by that digit
sequence: the empty list is the zero draw. -/
def jsRandomToString36 (digits : List (Fin 36)) : String :=
  if digits.isEmpty then "0" else "0." ++ String.mk (digits.map base36Char)

/-- `generateRoomId` (src/server.js 40-42):
`Math.random().toString(36).substring(2, 12).toUpperCase()`. -/
def generateRoomId (digits : List (Fin 36)) : String :=
  jsToUpperCase (jsSubstring (jsRandomToString36 digits) 2 12)

/-- Lexicographic comparison of two character sequences by code point, the
string comparison performed by the default `Array.prototype.sort`
comparator. -/
def jsCharsLtb : List Char → List Char → Bool
  | [], [] => false
  | [], _ :: _ => true
  | _ :: _, [] => false
  | a :: as, b :: bs =>
    if a.toNat < b.toNat then true
    else if b.toNat < a.toNat then false
    else jsCharsLtb as bs

/-- JS string comparison `s < t`. -/
def jsStringLt (s t : String) : Bool :=
  jsCharsLtb s.data t.data

/-- JS `[a, b].sort()` on a two-element string array: the pair is swapped
exactly when the second element compares below the first; otherwise the
order (also of two equal elements) is kept. -/
def jsSortPair (a b : String) : String × String :=
  if jsStringLt b a then (b, a) else (a, b)

/-- `createP2PRoomName` (src/server.js 45-48): lower-case both wallet
addresses, sort the pair, and build `call-` followed by the first 8
characters of each, separated by `-`. -/
def createP2PRoomName (wallet1 wallet2 : String) : String :=
  let sorted := jsSortPair (jsToLowerCase wallet1) (jsToLowerCase wallet2)
  "call-" ++ jsSubstring sorted.1 0 8 ++ "-" ++ jsSubstring sorted.2 0 8

/-- A room record, as stored in the `rooms` map (src/server.js 74-79). -/
structure Room where
  id : String
  host : String
  participants : List String
  created : Nat
deriving DecidableEq, Repr

/-- The in-memory `rooms : Map` (src/server.js 14), as an association list in
insertion order; a JS `Map` never holds two entries with the same key. -/
abbrev Registry := List (String × Room)

/-- `rooms.get(k)`: the record stored under key `k`, if any. -/
def roomsGet : Registry → String → Option Room
  | [], _ => none
  | (k', r) :: rest, k => if k' = k then some r else roomsGet rest k

/-- `rooms.get(roomId)` where the key is a possibly-absent body field:
`rooms.get(undefined)` finds nothing, since only string keys are ever set. -/
def roomsGetOpt (rooms : Registry) : Option String → Option Room
  | none => none
  | some k => roomsGet rooms k

/-- `rooms.set(k, r)`: replace the entry under `k` in place, or append a new
one (JS `Map.set` keeps the insertion position of an existing key). -/
def roomsSet : Registry → String → Room → Registry
  | [], k, r => [(k, r)]
  | (k', r') :: rest, k, r =>
    if k' = k then (k, r) :: rest else (k', r') :: roomsSet rest k r

/-- `rooms.delete(k)`: remove the entry under `k`, if any. -/
def roomsDelete (rooms : Registry) (k : String) : Registry :=
  List.filter (fun p => p.1 != k) rooms

/-- The `metadata` object passed to `generateToken`: the handlers send
`walletAddress` plus either an `isHost` flag (group calls) or an `isCaller`
flag (p2p calls), and a `callType` tag. -/
structure TokenMeta where
  walletAddress : String
  isHost : Option Bool
  isCaller : Option Bool
  callType : String
deriving DecidableEq, Repr

/-- One call to `generateToken(roomName, participantName, metadata)`
(src/server.js 17-37): the data bound into the LiveKit `AccessToken`.  The
signing itself happens in the external SDK and is represented by the oracle
passed to each handler. -/
structure TokenRequest where
  roomName : String
  participantName : String
  metadata : TokenMeta
deriving DecidableEq, Repr

/-- Body of `POST /api/create-room`. -/
structure CreateRoomBody where
  walletAddress : Option String
deriving DecidableEq, Repr

/-- Body of `POST /api/join-room` and of `POST /api/leave-room`. -/
structure RoomBody where
  roomId : Option String
  walletAddress : Option String
deriving DecidableEq, Repr

/-- Body of `POST /api/start-call` and `POST /api/answer-call`. -/
structure CallBody where
  callerWallet : Option String
  calleeWallet : Option String
deriving DecidableEq, Repr

/-- Response of `POST /api/create-room`. -/
inductive CreateRoomRes where
  | badRequest (error : String)
  | created (roomId : String) (token : String) (livekitUrl : Option String)
  | serverError (error : String)
deriving DecidableEq, Repr

/-- HTTP status of a create-room response. -/
def CreateRoomRes.status : CreateRoomRes → Nat
  | .badRequest _ => 400
  | .created .. => 200
  | .serverError _ => 500

/-- Response of `POST /api/join-room`; the `ok` form carries the token, the
configured LiveKit URL, and the joined room's id, host and participant
count. -/
inductive JoinRoomRes where
  | badRequest (error : String)
  | notFound (error : String)
  | ok (token : String) (livekitUrl : Option String)
      (id : String) (host : String) (participantCount : Nat)
  | serverError (error : String)
deriving DecidableEq, Repr

/-- HTTP status of a join-room response. -/
def JoinRoomRes.status : JoinRoomRes → Nat
  | .badRequest _ => 400
  | .notFound _ => 404
  | .ok .. => 200
  | .serverError _ => 500

/-- Response of `POST /api/start-call` and `POST /api/answer-call`. -/
inductive CallRes where
  | badRequest (error : String)
  | ok (token : String) (roomName : String) (livekitUrl : Option String)
  | serverError (error : String)
deriving DecidableEq, Repr

/-- HTTP status of a start-call or answer-call response. -/
def CallRes.status : CallRes → Nat
  | .badRequest _ => 400
  | .ok .. => 200
  | .serverError _ => 500

/-- Response of `POST /api/leave-room`: `success` is the body
`success: true`.  The `serverError` form mirrors the handler's catch clause,
which no execution of the modelled handler body reaches (its registry
operations cannot throw). -/
inductive LeaveRoomRes where
  | success
  | serverError (error : String)
deriving DecidableEq, Repr

/-- HTTP status of a leave-room response. -/
def LeaveRoomRes.status : LeaveRoomRes → Nat
  | .success => 200
  | .serverError _ => 500

/-- Response of `GET /api/room/:roomId`. -/
inductive RoomInfoRes where
  | notFound (error : String)
  | ok (id : String) (host : String) (participantCount : Nat) (created : Nat)
  | serverError (error : String)
deriving DecidableEq, Repr

/-- HTTP status of a room-info response. -/
def RoomInfoRes.status : RoomInfoRes → Nat
  | .notFound _ => 404
  | .ok .. => 200
  | .serverError _ => 500

/-- Handler of `POST /api/create-room` (src/server.js 62-103).  `rid` is the
base-36 expansion of the `Math.random()` draw consumed by `generateRoomId`,
`now` is `Date.now()`, `livekitUrl` is `process.env.LIVEKIT_URL`, and `tok`
is the outcome of the outbound `generateToken` call.  Returns the response,
the registry after the request, and the token requests issued.  The room is
committed to the registry before the token call, so it stays committed even
when `tok` is an error. -/
def createRoomHandler (body : CreateRoomBody) (rid : List (Fin 36)) (now : Nat)
    (livekitUrl : Option String) (tok : Except String String) (rooms : Registry) :
    CreateRoomRes × Registry × List TokenRequest :=
  if jsTruthy body.walletAddress then
    let walletAddress := body.walletAddress.getD ""
    let roomId := generateRoomId rid
    let room : Room :=
      { id := roomId, host := walletAddress, participants := [walletAddress], created := now }
    let rooms' := roomsSet rooms roomId room
    let req : TokenRequest :=
      { roomName := "meeting-" ++ roomId, participantName := walletAddress,
        metadata := { walletAddress := walletAddress, isHost := some true,
                      isCaller := none, callType := "group" } }
    match tok with
    | .ok token => (.created roomId token livekitUrl, rooms', [req])
    | .error msg => (.serverError msg, rooms', [req])
  else
    (.badRequest "Wallet address required", rooms, [])

/-- Handler of `POST /api/join-room` (src/server.js 106-150).  Appends the
wallet to the room's participants unless already present; the mutation
happens before the token call, so it persists even when `tok` is an error. -/
def joinRoomHandler (body : RoomBody) (livekitUrl : Option String)
    (tok : Except String String) (rooms : Registry) :
    JoinRoomRes × Registry × List TokenRequest :=
  if jsTruthy body.roomId && jsTruthy body.walletAddress then
    let roomId := body.roomId.getD ""
    let walletAddress := body.walletAddress.getD ""
    match roomsGet rooms roomId with
    | none => (.notFound "Room not found", rooms, [])
    | some room =>
      let room' :=
        if walletAddress ∈ room.participants then room
        else { room with participants := room.participants ++ [walletAddress] }
      let rooms' := roomsSet rooms roomId room'
      let req : TokenRequest :=
        { roomName := "meeting-" ++ roomId, participantName := walletAddress,
          metadata := { walletAddress := walletAddress, isHost := some false,
                        isCaller := none, callType := "group" } }
      match tok with
      | .ok token =>
        (.ok token livekitUrl room'.id room'.host room'.participants.length, rooms', [req])
      | .error msg => (.serverError msg, rooms', [req])
  else
    (.badRequest "Room ID and wallet address required", rooms, [])

/-- Handler of `POST /api/start-call` (src/server.js 153-184).  Stateless:
derives the canonical p2p room name and issues a token for the caller with
`isCaller: true`. -/
def startCallHandler (body : CallBody) (livekitUrl : Option String)
    (tok : Except String String) : CallRes × List TokenRequest :=
  if jsTruthy body.callerWallet && jsTruthy body.calleeWallet then
    let callerWallet := body.callerWallet.getD ""
    let calleeWallet := body.calleeWallet.getD ""
    let roomName := createP2PRoomName callerWallet calleeWallet
    let req : TokenRequest :=
      { roomName := roomName, participantName := callerWallet,
        metadata := { walletAddress := callerWallet, isHost := none,
                      isCaller := some true, callType := "p2p" } }
    match tok with
    | .ok token => (.ok token roomName livekitUrl, [req])
    | .error msg => (.serverError msg, [req])
  else
    (.badRequest "Both wallet addresses required", [])

/-- Handler of `POST /api/answer-call` (src/server.js 187-218).  Derives the
same canonical room name and issues a token for the callee with
`isCaller: false`. -/
def answerCallHandler (body : CallBody) (livekitUrl : Option String)
    (tok : Except String String) : CallRes × List TokenRequest :=
  if jsTruthy body.callerWallet && jsTruthy body.calleeWallet then
    let callerWallet := body.callerWallet.getD ""
    let calleeWallet := body.calleeWallet.getD ""
    let roomName := createP2PRoomName callerWallet calleeWallet
    let req : TokenRequest :=
      { roomName := roomName, participantName := calleeWallet,
        metadata := { walletAddress := calleeWallet, isHost := none,
                      isCaller := some false, callType := "p2p" } }
    match tok with
    | .ok token => (.ok token roomName livekitUrl, [req])
    | .error msg => (.serverError msg, [req])
  else
    (.badRequest "Both wallet addresses required", [])

/-- Handler of `POST /api/leave-room` (src/server.js 221-244).  No validation:
it filters the wallet out of the room's participants when the room exists
(`p !== walletAddress` keeps every participant when the field is absent),
deletes the room when the list empties, and always answers `success: true`. -/
def leaveRoomHandler (body : RoomBody) (rooms : Registry) :
    LeaveRoomRes × Registry :=
  match roomsGetOpt rooms body.roomId, body.roomId with
  | some room, some roomId =>
    let participants' := room.participants.filter (fun p => body.walletAddress != some p)
    if participants'.isEmpty then
      (.success, roomsDelete rooms roomId)
    else
      (.success, roomsSet rooms roomId { room with participants := participants' })
  | _, _ => (.success, rooms)

/-- Handler of `GET /api/room/:roomId` (src/server.js 247-270); `roomId` is a
path parameter, hence always a present string. -/
def getRoomInfoHandler (roomId : String) (rooms : Registry) : RoomInfoRes :=
  match roomsGet rooms roomId with
  | none => .notFound "Room not found"
  | some room => .ok room.id room.host room.participants.length room.created

/-- Registry states reachable from the empty initial map (src/server.js 14)
through the three mutating handlers, with arbitrary request bodies, random
draws, clock values and token-issuance outcomes. -/
inductive Reachable : Registry → Prop where
  | empty : Reachable ([] : Registry)
  | create (body : CreateRoomBody) (rid : List (Fin 36)) (now : Nat)
      (livekitUrl : Option String) (tok : Except String String) (rooms : Registry) :
      Reachable rooms → Reachable (createRoomHandler body rid now livekitUrl tok rooms).2.1
  | join (body : RoomBody) (livekitUrl : Option String)
      (tok : Except String String) (rooms : Registry) :
      Reachable rooms → Reachable (joinRoomHandler body livekitUrl tok rooms).2.1
  | leave (body : RoomBody) (rooms : Registry) :
      Reachable rooms → Reachable (leaveRoomHandler body rooms).2

/-! Order facts about the JS string comparison used by the pair sort. -/

theorem jsCharsLtb_asymm (as : List Char) :
    ∀ bs, jsCharsLtb as bs = true → jsCharsLtb bs as = false := by
  induction as with
  | nil => intro bs h; cases bs <;> simp_all [jsCharsLtb]
  | cons a as ih =>
    intro bs h
    cases bs with
    | nil => simp [jsCharsLtb] at h
    | cons b bs =>
      simp only [jsCharsLtb] at h ⊢
      by_cases hab : a.toNat < b.toNat
      · have hba : ¬ b.toNat < a.toNat := by omega
        simp [hab, hba]
      · by_cases hba : b.toNat < a.toNat
        · simp [hab, hba] at h
        · simp only [if_neg hab, if_neg hba] at h ⊢
          exact ih bs h

theorem jsCharsLtb_eq_of_not_lt (as : List Char) :
    ∀ bs, jsCharsLtb as bs = false → jsCharsLtb bs as = false → as = bs := by
  induction as with
  | nil => intro bs h₁ h₂; cases bs <;> simp_all [jsCharsLtb]
  | cons a as ih =>
    intro bs h₁ h₂
    cases bs with
    | nil => simp [jsCharsLtb] at h₂
    | cons b bs =>
      simp only [jsCharsLtb] at h₁ h₂
      by_cases hab : a.toNat < b.toNat
      · simp [hab] at h₁
      · by_cases hba : b.toNat < a.toNat
        · simp [hba] at h₂
        · have hc : a = b := by
            have h3 : a.toNat = b.toNat := by omega
            calc a = Char.ofNat a.toNat := (Char.ofNat_toNat a).symm
              _ = Char.ofNat b.toNat := by rw [h3]
              _ = b := Char.ofNat_toNat b
          simp only [if_neg hab, if_neg hba] at h₁ h₂
          simp [hc, ih bs h₁ h₂]

theorem jsSortPair_comm (a b : String) : jsSortPair a b = jsSortPair b a := by
  unfold jsSortPair
  by_cases h₁ : jsStringLt b a = true
  · have h₂ : jsStringLt a b = false := jsCharsLtb_asymm _ _ h₁
    simp [h₁, h₂]
  · rw [Bool.not_eq_true] at h₁
    by_cases h₂ : jsStringLt a b = true
    · simp [h₁, h₂]
    · rw [Bool.not_eq_true] at h₂
      have hdata : a.data = b.data :=
        jsCharsLtb_eq_of_not_lt a.data b.data h₂ h₁
      obtain ⟨da⟩ := a
      obtain ⟨db⟩ := b
      simp only [String.data] at hdata
      simp [h₁, h₂, hdata]

/-- Order independence of the p2p room-name derivation. -/
theorem createP2PRoomName_comm (wallet1 wallet2 : String) :
    createP2PRoomName wallet1 wallet2 = createP2PRoomName wallet2 wallet1 := by
  unfold createP2PRoomName
  rw [jsSortPair_comm]

/-! Lookup, update and delete facts about the room registry. -/

theorem roomsGet_set_self (rooms : Registry) (k : String) (r : Room) :
    roomsGet (roomsSet rooms k r) k = some r := by
  induction rooms with
  | nil => simp [roomsSet, roomsGet]
  | cons p rest ih =>
    obtain ⟨k', r'⟩ := p
    by_cases h : k' = k
    · simp [roomsSet, roomsGet, h]
    · simp [roomsSet, roomsGet, h, ih]

theorem roomsGet_set_ne (rooms : Registry) (k k₂ : String) (r : Room) (h : k₂ ≠ k) :
    roomsGet (roomsSet rooms k r) k₂ = roomsGet rooms k₂ := by
  induction rooms with
  | nil => simp [roomsSet, roomsGet, Ne.symm h]
  | cons p rest ih =>
    obtain ⟨k', r'⟩ := p
    by_cases hk : k' = k
    · subst hk
      simp [roomsSet, roomsGet, h, Ne.symm h]
    · simp [roomsSet, roomsGet, hk, ih]

theorem roomsSet_get_self (rooms : Registry) (k : String) (r : Room)
    (h : roomsGet rooms k = some r) : roomsSet rooms k r = rooms := by
  induction rooms with
  | nil => simp [roomsGet] at h
  | cons p rest ih =>
    obtain ⟨k', r'⟩ := p
    by_cases hk : k' = k
    · subst hk
      simp [roomsGet] at h
      simp [roomsSet, h]
    · simp [roomsGet, hk] at h
      simp [roomsSet, hk, ih h]

theorem roomsGet_delete_self (rooms : Registry) (k : String) :
    roomsGet (roomsDelete rooms k) k = none := by
  induction rooms with
  | nil => rfl
  | cons p rest ih =>
    obtain ⟨k', r'⟩ := p
    by_cases hk : k' = k
    · simpa [roomsDelete, List.filter_cons, hk] using ih
    · simpa [roomsDelete, List.filter_cons, hk, roomsGet] using ih

theorem roomsGet_delete_ne (rooms : Registry) (k k₂ : String) (h : k₂ ≠ k) :
    roomsGet (roomsDelete rooms k) k₂ = roomsGet rooms k₂ := by
  induction rooms with
  | nil => rfl
  | cons p rest ih =>
    obtain ⟨k', r'⟩ := p
    by_cases hk : k' = k
    · subst hk
      simpa [roomsDelete, List.filter_cons, roomsGet, Ne.symm h] using ih
    · simp only [roomsDelete] at ih
      simp [roomsDelete, List.filter_cons, roomsGet, hk, ih]

theorem mem_of_roomsGet (rooms : Registry) (k : String) (r : Room)
    (h : roomsGet rooms k = some r) : (k, r) ∈ rooms := by
  induction rooms with
  | nil => simp [roomsGet] at h
  | cons p rest ih =>
    obtain ⟨k', r'⟩ := p
    by_cases hk : k' = k
    · subst hk
      simp [roomsGet] at h
      simp [h]
    · simp [roomsGet, hk] at h
      exact List.mem_cons_of_mem _ (ih h)

theorem mem_roomsSet (rooms : Registry) (k : String) (r : Room) (x : String × Room)
    (h : x ∈ roomsSet rooms k r) : x = (k, r) ∨ x ∈ rooms := by
  induction rooms with
  | nil =>
    simp [roomsSet] at h
    exact Or.inl h
  | cons p rest ih =>
    obtain ⟨k', r'⟩ := p
    by_cases hk : k' = k
    · simp only [roomsSet, if_pos hk, List.mem_cons] at h
      rcases h with h | h
      · exact Or.inl h
      · exact Or.inr (List.mem_cons_of_mem _ h)
    · simp only [roomsSet, if_neg hk, List.mem_cons] at h
      rcases h with h | h
      · exact Or.inr (by simp [h])
      · rcases ih h with h2 | h2
        · exact Or.inl h2
        · exact Or.inr (List.mem_cons_of_mem _ h2)

theorem mem_roomsDelete (rooms : Registry) (k : String) (x : String × Room)
    (h : x ∈ roomsDelete rooms k) : x ∈ rooms :=
  List.mem_of_mem_filter h

/-! Invariants of the registry, and their preservation by the three mutating
handlers. -/

/-- The room-record invariants the handlers maintain: no duplicate
participant, and at least one participant. -/
def RoomOK (r : Room) : Prop := r.participants.Nodup ∧ r.participants ≠ []

/-- Every record in the registry satisfies `RoomOK`. -/
def roomsOK (rooms : Registry) : Prop := ∀ p ∈ rooms, RoomOK p.2

theorem roomsOK_create (body : CreateRoomBody) (rid : List (Fin 36)) (now : Nat)
    (url : Option String) (tok : Except String String) (rooms : Registry)
    (h : roomsOK rooms) : roomsOK (createRoomHandler body rid now url tok rooms).2.1 := by
  unfold createRoomHandler
  by_cases ht : jsTruthy body.walletAddress = true
  · cases tok with
    | ok t =>
      simp only [ht, if_true]
      intro p hp
      rcases mem_roomsSet _ _ _ _ hp with h2 | h2
      · subst h2
        exact ⟨List.nodup_singleton _, by simp⟩
      · exact h p h2
    | error m =>
      simp only [ht, if_true]
      intro p hp
      rcases mem_roomsSet _ _ _ _ hp with h2 | h2
      · subst h2
        exact ⟨List.nodup_singleton _, by simp⟩
      · exact h p h2
  · simp only [Bool.not_eq_true] at ht
    simp only [ht, Bool.false_eq_true, if_false]
    exact h

theorem roomsOK_set (rooms : Registry) (k : String) (r : Room)
    (h : roomsOK rooms) (hr : RoomOK r) : roomsOK (roomsSet rooms k r) := by
  intro p hp
  rcases mem_roomsSet _ _ _ _ hp with h2 | h2
  · subst h2
    exact hr
  · exact h p h2

theorem roomsOK_delete (rooms : Registry) (k : String) (h : roomsOK rooms) :
    roomsOK (roomsDelete rooms k) :=
  fun p hp => h p (mem_roomsDelete _ _ _ hp)

theorem RoomOK_join_update (room : Room) (w : String) (h : RoomOK room) :
    RoomOK (if w ∈ room.participants then room
            else { room with participants := room.participants ++ [w] }) := by
  by_cases hw : w ∈ room.participants
  · simpa [hw] using h
  · simp only [if_neg hw]
    have hdisj : room.participants.Disjoint [w] := by
      intro x hx hx2
      simp only [List.mem_singleton] at hx2
      subst hx2
      exact hw hx
    refine ⟨List.nodup_append.mpr ⟨h.1, List.nodup_singleton _, hdisj⟩, by simp⟩

theorem roomsOK_join (body : RoomBody) (url : Option String)
    (tok : Except String String) (rooms : Registry)
    (h : roomsOK rooms) : roomsOK (joinRoomHandler body url tok rooms).2.1 := by
  unfold joinRoomHandler
  by_cases ht : (jsTruthy body.roomId && jsTruthy body.walletAddress) = true
  · rcases hg : roomsGet rooms (body.roomId.getD "") with _ | room
    · simp only [ht, if_true, hg]
      exact h
    · simp only [ht, if_true, hg]
      have hroom : RoomOK room := h _ (mem_of_roomsGet _ _ _ hg)
      cases tok with
      | ok t => exact roomsOK_set _ _ _ h (RoomOK_join_update room _ hroom)
      | error m => exact roomsOK_set _ _ _ h (RoomOK_join_update room _ hroom)
  · simp only [Bool.not_eq_true] at ht
    simp only [ht, Bool.false_eq_true, if_false]
    exact h

theorem roomsOK_leave (body : RoomBody) (rooms : Registry) (h : roomsOK rooms) :
    roomsOK (leaveRoomHandler body rooms).2 := by
  unfold leaveRoomHandler
  rcases hb : body.roomId with _ | roomId
  · simpa [roomsGetOpt, hb] using h
  · rcases hg : roomsGet rooms roomId with _ | room
    · simpa only [roomsGetOpt, hb, hg] using h
    · simp only [roomsGetOpt, hb, hg]
      by_cases he : (room.participants.filter (fun p => body.walletAddress != some p)).isEmpty = true
      · simp only [he, if_true]
        exact roomsOK_delete _ _ h
      · simp only [Bool.not_eq_true] at he
        simp only [he, Bool.false_eq_true, if_false]
        refine roomsOK_set _ _ _ h ⟨(h _ (mem_of_roomsGet _ _ _ hg)).1.filter _, ?_⟩
        intro hnil
        simp only at hnil
        rw [hnil] at he
        simp at he

theorem reachable_roomsOK (rooms : Registry) (h : Reachable rooms) : roomsOK rooms := by
  induction h with
  | empty => intro p hp; simp at hp
  | create body rid now url tok rooms hr ih => exact roomsOK_create body rid now url tok rooms ih
  | join body url tok rooms hr ih => exact roomsOK_join body url tok rooms ih
  | leave body rooms hr ih => exact roomsOK_leave body rooms ih

/-! Characterizations of the registries the mutating handlers produce. -/

theorem joinRoomHandler_rooms_invalid (body : RoomBody) (url : Option String)
    (tok : Except String String) (rooms : Registry)
    (ht : (jsTruthy body.roomId && jsTruthy body.walletAddress) = false) :
    (joinRoomHandler body url tok rooms).2.1 = rooms := by
  unfold joinRoomHandler
  simp [ht]

theorem joinRoomHandler_rooms_notFound (body : RoomBody) (url : Option String)
    (tok : Except String String) (rooms : Registry)
    (hg : roomsGet rooms (body.roomId.getD "") = none) :
    (joinRoomHandler body url tok rooms).2.1 = rooms := by
  unfold joinRoomHandler
  by_cases ht : (jsTruthy body.roomId && jsTruthy body.walletAddress) = true
  · simp [ht, hg]
  · simp only [Bool.not_eq_true] at ht
    simp [ht]

theorem joinRoomHandler_rooms_found (body : RoomBody) (url : Option String)
    (tok : Except String String) (rooms : Registry) (room : Room)
    (ht : (jsTruthy body.roomId && jsTruthy body.walletAddress) = true)
    (hg : roomsGet rooms (body.roomId.getD "") = some room) :
    (joinRoomHandler body url tok rooms).2.1 =
      roomsSet rooms (body.roomId.getD "")
        (if body.walletAddress.getD "" ∈ room.participants then room
         else { room with
                participants := room.participants ++ [body.walletAddress.getD ""] }) := by
  unfold joinRoomHandler
  cases tok <;> simp [ht, hg]

theorem leaveRoomHandler_rooms_noRoom (body : RoomBody) (rooms : Registry)
    (hg : roomsGetOpt rooms body.roomId = none) :
    (leaveRoomHandler body rooms).2 = rooms := by
  unfold leaveRoomHandler
  rcases hb : body.roomId with _ | rid <;> rw [hb] at hg <;> simp [hg]

theorem leaveRoomHandler_rooms_found (body : RoomBody) (rooms : Registry)
    (roomId : String) (room : Room) (hb : body.roomId = some roomId)
    (hg : roomsGet rooms roomId = some room) :
    (leaveRoomHandler body rooms).2 =
      if (room.participants.filter (fun p => body.walletAddress != some p)).isEmpty then
        roomsDelete rooms roomId
      else
        roomsSet rooms roomId
          { room with
            participants :=
              room.participants.filter (fun p => body.walletAddress != some p) } := by
  unfold leaveRoomHandler
  simp only [roomsGetOpt, hb, hg]
  split <;> rfl

/-! The claims. -/

/-- C1: the p2p room-name derivation is order-independent, and the start-call
and answer-call handlers invoked with the same caller/callee pair answer the
identical roomName string. -/
theorem p2pName_order_independent (A B caller callee t₁ t₂ : String)
    (url : Option String) (hcaller : caller ≠ "") (hcallee : callee ≠ "") :
    createP2PRoomName A B = createP2PRoomName B A ∧
    ∃ roomName,
      (startCallHandler ⟨some caller, some callee⟩ url (.ok t₁)).1 =
        .ok t₁ roomName url ∧
      (answerCallHandler ⟨some caller, some callee⟩ url (.ok t₂)).1 =
        .ok t₂ roomName url := by
  refine ⟨createP2PRoomName_comm A B, createP2PRoomName caller callee, ?_, ?_⟩
  · unfold startCallHandler
    simp [jsTruthy, hcaller, hcallee]
  · unfold answerCallHandler
    simp [jsTruthy, hcaller, hcallee]

/-- Witness: C1 at the concrete wallets of the scenario. -/
theorem p2pName_order_independent_witness :
    createP2PRoomName "0xAlice1234" "0xBob5678" =
      createP2PRoomName "0xBob5678" "0xAlice1234" ∧
    ∃ roomName,
      (startCallHandler ⟨some "0xAlice1234", some "0xBob5678"⟩ none (.ok "tokA")).1 =
        .ok "tokA" roomName none ∧
      (answerCallHandler ⟨some "0xAlice1234", some "0xBob5678"⟩ none (.ok "tokB")).1 =
        .ok "tokB" roomName none :=
  p2pName_order_independent "0xAlice1234" "0xBob5678" "0xAlice1234" "0xBob5678"
    "tokA" "tokB" none (by decide) (by decide)

/-- C2: immediately after create-room with host `w` the registry maps the
returned room id to a room whose participants list is exactly `[w]` and whose
host is `w`; on token success the response carries exactly that id. -/
theorem createRoom_registers_host (w : String) (rid : List (Fin 36)) (now : Nat)
    (url : Option String) (tok : Except String String) (rooms : Registry)
    (hw : w ≠ "") :
    roomsGet (createRoomHandler ⟨some w⟩ rid now url tok rooms).2.1 (generateRoomId rid) =
      some { id := generateRoomId rid, host := w, participants := [w], created := now } ∧
    (∀ t, tok = .ok t →
      (createRoomHandler ⟨some w⟩ rid now url tok rooms).1 =
        .created (generateRoomId rid) t url) := by
  constructor
  · unfold createRoomHandler
    cases tok <;> simp [jsTruthy, hw, roomsGet_set_self]
  · rintro t rfl
    unfold createRoomHandler
    simp [jsTruthy, hw]

/-- Witness: C2 for host 0xAAA1 with a two-digit random draw. -/
theorem createRoom_registers_host_witness :
    roomsGet (createRoomHandler ⟨some "0xAAA1"⟩ [10, 11] 7 none (.ok "tok") []).2.1
        (generateRoomId [10, 11]) =
      some { id := generateRoomId [10, 11], host := "0xAAA1",
             participants := ["0xAAA1"], created := 7 } ∧
    (∀ t, (Except.ok "tok" : Except String String) = .ok t →
      (createRoomHandler ⟨some "0xAAA1"⟩ [10, 11] 7 none (.ok "tok") []).1 =
        .created (generateRoomId [10, 11]) t none) :=
  createRoom_registers_host "0xAAA1" [10, 11] 7 none (.ok "tok") [] (by decide)

/-- C4: join-room with an unknown room id answers HTTP 404 with error body
Room not found, leaves the registry unchanged and sends no token request. -/
theorem joinRoom_unknown_id_404 (id w : String) (url : Option String)
    (tok : Except String String) (rooms : Registry)
    (hid : id ≠ "") (hw : w ≠ "") (h : roomsGet rooms id = none) :
    joinRoomHandler ⟨some id, some w⟩ url tok rooms =
      (.notFound "Room not found", rooms, []) ∧
    (joinRoomHandler ⟨some id, some w⟩ url tok rooms).1.status = 404 := by
  have h1 : joinRoomHandler ⟨some id, some w⟩ url tok rooms =
      (.notFound "Room not found", rooms, []) := by
    unfold joinRoomHandler
    simp [jsTruthy, hid, hw, h]
  exact ⟨h1, by rw [h1]; rfl⟩

/-- Witness: C4 on the empty registry with a room id never created. -/
theorem joinRoom_unknown_id_404_witness :
    joinRoomHandler ⟨some "NOSUCH", some "0xAAA1"⟩ none (.ok "tok") [] =
      (.notFound "Room not found", [], []) ∧
    (joinRoomHandler ⟨some "NOSUCH", some "0xAAA1"⟩ none (.ok "tok") []).1.status = 404 :=
  joinRoom_unknown_id_404 "NOSUCH" "0xAAA1" none (.ok "tok") []
    (by decide) (by decide) rfl

/-- C9: create-room with the walletAddress field absent answers HTTP 400 with
a descriptive message and has no side effect: the registry is unchanged and
no token request is sent. -/
theorem createRoom_missing_wallet_400_pure (rid : List (Fin 36)) (now : Nat)
    (url : Option String) (tok : Except String String) (rooms : Registry) :
    createRoomHandler ⟨none⟩ rid now url tok rooms =
      (.badRequest "Wallet address required", rooms, []) ∧
    (createRoomHandler ⟨none⟩ rid now url tok rooms).1.status = 400 := by
  have h1 : createRoomHandler ⟨none⟩ rid now url tok rooms =
      (.badRequest "Wallet address required", rooms, []) := by
    unfold createRoomHandler
    simp [jsTruthy]
  exact ⟨h1, by rw [h1]; rfl⟩

theorem leaveRoomRes_success (body : RoomBody) (rooms : Registry) :
    (leaveRoomHandler body rooms).1 = .success := by
  unfold leaveRoomHandler
  rcases hm : roomsGetOpt rooms body.roomId with _ | room
  · rcases hb : body.roomId with _ | rid <;> simp [hm, hb]
  · rcases hb : body.roomId with _ | rid
    · simp [hm, hb]
    · simp only [hm, hb]
      by_cases he :
          ((room.participants.filter (fun p => body.walletAddress != some p)).isEmpty) = true
      · simp [he]
      · simp only [Bool.not_eq_true] at he
        simp [he]

/-- C6: leave-room answers success true for every input, with HTTP 200 and
never an error, and calling it twice in a row with the same body answers
success both times. -/
theorem leaveRoom_always_success (body : RoomBody) (rooms : Registry) :
    (leaveRoomHandler body rooms).1 = .success ∧
    (leaveRoomHandler body (leaveRoomHandler body rooms).2).1 = .success ∧
    (leaveRoomHandler body rooms).1.status = 200 := by
  refine ⟨leaveRoomRes_success body rooms, leaveRoomRes_success body _, ?_⟩
  rw [leaveRoomRes_success body rooms]
  rfl

/-- C8: when token issuance throws during create-room, the handler answers
HTTP 500 carrying the underlying message and without a token, but the room
already inserted is not rolled back: it stays registered with the host as
sole participant. -/
theorem createRoom_token_failure_not_rolled_back (w msg : String)
    (rid : List (Fin 36)) (now : Nat) (url : Option String) (rooms : Registry)
    (hw : w ≠ "") :
    (createRoomHandler ⟨some w⟩ rid now url (.error msg) rooms).1 = .serverError msg ∧
    (createRoomHandler ⟨some w⟩ rid now url (.error msg) rooms).1.status = 500 ∧
    roomsGet (createRoomHandler ⟨some w⟩ rid now url (.error msg) rooms).2.1
        (generateRoomId rid) =
      some { id := generateRoomId rid, host := w, participants := [w], created := now } := by
  have h1 : (createRoomHandler ⟨some w⟩ rid now url (.error msg) rooms).1 =
      .serverError msg := by
    unfold createRoomHandler
    simp [jsTruthy, hw]
  refine ⟨h1, by rw [h1]; rfl, ?_⟩
  unfold createRoomHandler
  simp [jsTruthy, hw, roomsGet_set_self]

/-- Witness: C8 with a concrete failing issuance on the empty registry. -/
theorem createRoom_token_failure_not_rolled_back_witness :
    (createRoomHandler ⟨some "0xAAA1"⟩ [10, 11] 7 none (.error "boom") []).1 =
      .serverError "boom" ∧
    (createRoomHandler ⟨some "0xAAA1"⟩ [10, 11] 7 none (.error "boom") []).1.status = 500 ∧
    roomsGet (createRoomHandler ⟨some "0xAAA1"⟩ [10, 11] 7 none (.error "boom") []).2.1
        (generateRoomId [10, 11]) =
      some { id := generateRoomId [10, 11], host := "0xAAA1",
             participants := ["0xAAA1"], created := 7 } :=
  createRoom_token_failure_not_rolled_back "0xAAA1" "boom" [10, 11] 7 none [] (by decide)

theorem join_mem_after (room : Room) (w : String) :
    w ∈ (if w ∈ room.participants then room
         else { room with participants := room.participants ++ [w] }).participants := by
  by_cases hw : w ∈ room.participants <;> simp [hw]

theorem joinRoomHandler_second_noop (body : RoomBody) (url₂ : Option String)
    (tok₂ : Except String String) (rooms₁ : Registry) (room' : Room)
    (ht : (jsTruthy body.roomId && jsTruthy body.walletAddress) = true)
    (hg2 : roomsGet rooms₁ (body.roomId.getD "") = some room')
    (hmem : body.walletAddress.getD "" ∈ room'.participants) :
    (joinRoomHandler body url₂ tok₂ rooms₁).2.1 = rooms₁ := by
  rw [joinRoomHandler_rooms_found body url₂ tok₂ rooms₁ room' ht hg2, if_pos hmem]
  exact roomsSet_get_self _ _ _ hg2

theorem joinRoomHandler_twice (body : RoomBody) (url url₂ : Option String)
    (tok tok₂ : Except String String) (rooms : Registry) :
    (joinRoomHandler body url₂ tok₂ (joinRoomHandler body url tok rooms).2.1).2.1 =
      (joinRoomHandler body url tok rooms).2.1 := by
  by_cases ht : (jsTruthy body.roomId && jsTruthy body.walletAddress) = true
  · rcases hg : roomsGet rooms (body.roomId.getD "") with _ | room
    · rw [joinRoomHandler_rooms_notFound body url tok rooms hg]
      exact joinRoomHandler_rooms_notFound body url₂ tok₂ rooms hg
    · rw [joinRoomHandler_rooms_found body url tok rooms room ht hg]
      exact joinRoomHandler_second_noop body url₂ tok₂ _ _ ht
        (roomsGet_set_self rooms (body.roomId.getD "") _) (join_mem_after room _)
  · simp only [Bool.not_eq_true] at ht
    rw [joinRoomHandler_rooms_invalid body url tok rooms ht]
    exact joinRoomHandler_rooms_invalid body url₂ tok₂ rooms ht

/-- C3: joining the same room twice in a row with the same wallet leaves the
participants list unchanged in length after the second call, and in every
reachable registry state no room's participants list holds the same
identifier twice. -/
theorem join_twice_same_wallet_nodup (id P : String) (url url₂ : Option String)
    (tok tok₂ : Except String String) (rooms rooms₂ : Registry) (k : String) (r : Room)
    (hreach : Reachable rooms₂) (hr : roomsGet rooms₂ k = some r) :
    Option.map (fun rm => rm.participants.length)
        (roomsGet (joinRoomHandler ⟨some id, some P⟩ url₂ tok₂
            (joinRoomHandler ⟨some id, some P⟩ url tok rooms).2.1).2.1 id) =
      Option.map (fun rm => rm.participants.length)
        (roomsGet (joinRoomHandler ⟨some id, some P⟩ url tok rooms).2.1 id) ∧
    r.participants.Nodup := by
  constructor
  · rw [joinRoomHandler_twice]
  · exact (reachable_roomsOK rooms₂ hreach _ (mem_of_roomsGet _ _ _ hr)).1

/-- Witness: C3 on a freshly created room AB, joined twice by wallet
0xBBB2. -/
theorem join_twice_same_wallet_nodup_witness :
    Option.map (fun rm => rm.participants.length)
        (roomsGet (joinRoomHandler ⟨some "AB", some "0xBBB2"⟩ none (.ok "t2")
            (joinRoomHandler ⟨some "AB", some "0xBBB2"⟩ none (.ok "t1")
              (createRoomHandler ⟨some "0xAAA1"⟩ [10, 11] 7 none
                (.ok "tok") []).2.1).2.1).2.1 "AB") =
      Option.map (fun rm => rm.participants.length)
        (roomsGet (joinRoomHandler ⟨some "AB", some "0xBBB2"⟩ none (.ok "t1")
            (createRoomHandler ⟨some "0xAAA1"⟩ [10, 11] 7 none
              (.ok "tok") []).2.1).2.1 "AB") ∧
    List.Nodup (Room.participants
      { id := "AB", host := "0xAAA1", participants := ["0xAAA1"], created := 7 }) :=
  join_twice_same_wallet_nodup "AB" "0xBBB2" none none (.ok "t1") (.ok "t2")
    (createRoomHandler ⟨some "0xAAA1"⟩ [10, 11] 7 none (.ok "tok") []).2.1
    (createRoomHandler ⟨some "0xAAA1"⟩ [10, 11] 7 none (.ok "tok") []).2.1
    "AB" { id := "AB", host := "0xAAA1", participants := ["0xAAA1"], created := 7 }
    (Reachable.create ⟨some "0xAAA1"⟩ [10, 11] 7 none (.ok "tok") [] Reachable.empty)
    (by decide)

/-- C5: leaving a room as its sole remaining participant removes the room
from the registry entirely, so that lookup and the room-info endpoint report
not-found; and in every reachable registry state a registered room's
participants list is non-empty. -/
theorem leave_sole_participant_deletes_room (id P : String) (rooms rooms₂ : Registry)
    (room : Room) (k : String) (r : Room)
    (hg : roomsGet rooms id = some room) (hsole : room.participants = [P])
    (hreach : Reachable rooms₂) (hr : roomsGet rooms₂ k = some r) :
    roomsGet (leaveRoomHandler ⟨some id, some P⟩ rooms).2 id = none ∧
    getRoomInfoHandler id (leaveRoomHandler ⟨some id, some P⟩ rooms).2 =
      .notFound "Room not found" ∧
    r.participants ≠ [] := by
  have hfilter : room.participants.filter
      (fun p => (⟨some id, some P⟩ : RoomBody).walletAddress != some p) = [] := by
    rw [hsole]
    simp
  have h2 : (leaveRoomHandler ⟨some id, some P⟩ rooms).2 = roomsDelete rooms id := by
    rw [leaveRoomHandler_rooms_found ⟨some id, some P⟩ rooms id room rfl hg, hfilter]
    simp
  have h3 : roomsGet (leaveRoomHandler ⟨some id, some P⟩ rooms).2 id = none := by
    rw [h2]
    exact roomsGet_delete_self rooms id
  refine ⟨h3, ?_, ?_⟩
  · unfold getRoomInfoHandler
    rw [h3]
  · exact (reachable_roomsOK rooms₂ hreach _ (mem_of_roomsGet _ _ _ hr)).2

/-- Witness: C5 on a freshly created room AB whose sole participant, the
host, leaves. -/
theorem leave_sole_participant_deletes_room_witness :
    roomsGet (leaveRoomHandler ⟨some "AB", some "0xAAA1"⟩
        (createRoomHandler ⟨some "0xAAA1"⟩ [10, 11] 7 none (.ok "tok") []).2.1).2 "AB" =
      none ∧
    getRoomInfoHandler "AB" (leaveRoomHandler ⟨some "AB", some "0xAAA1"⟩
        (createRoomHandler ⟨some "0xAAA1"⟩ [10, 11] 7 none (.ok "tok") []).2.1).2 =
      .notFound "Room not found" ∧
    Room.participants
        { id := "AB", host := "0xAAA1", participants := ["0xAAA1"], created := 7 } ≠ [] :=
  leave_sole_participant_deletes_room "AB" "0xAAA1"
    (createRoomHandler ⟨some "0xAAA1"⟩ [10, 11] 7 none (.ok "tok") []).2.1
    (createRoomHandler ⟨some "0xAAA1"⟩ [10, 11] 7 none (.ok "tok") []).2.1
    { id := "AB", host := "0xAAA1", participants := ["0xAAA1"], created := 7 }
    "AB" { id := "AB", host := "0xAAA1", participants := ["0xAAA1"], created := 7 }
    (by decide) (by decide)
    (Reachable.create ⟨some "0xAAA1"⟩ [10, 11] 7 none (.ok "tok") [] Reachable.empty)
    (by decide)

/-- C10: leave-room removes every occurrence of the wallet from the named
room's participants (and only those occurrences, preserving the relative
order of the rest), keeps the room's host and created fields, and leaves
every other room unchanged; the room disappears from the registry exactly
when every participant equals the leaving wallet. -/
theorem leaveRoom_removes_only_wallet (id P : String) (rooms : Registry) (room : Room)
    (hg : roomsGet rooms id = some room) :
    (roomsGet (leaveRoomHandler ⟨some id, some P⟩ rooms).2 id = none ↔
      ∀ x ∈ room.participants, x = P) ∧
    (∀ r', roomsGet (leaveRoomHandler ⟨some id, some P⟩ rooms).2 id = some r' →
      r'.host = room.host ∧ r'.created = room.created ∧
      P ∉ r'.participants ∧ r'.participants.Sublist room.participants ∧
      ∀ x, x ≠ P → r'.participants.count x = room.participants.count x) ∧
    (∀ id₂, id₂ ≠ id →
      roomsGet (leaveRoomHandler ⟨some id, some P⟩ rooms).2 id₂ = roomsGet rooms id₂) := by
  by_cases he : (room.participants.filter
      (fun p => (⟨some id, some P⟩ : RoomBody).walletAddress != some p)).isEmpty = true
  · have hpost : (leaveRoomHandler ⟨some id, some P⟩ rooms).2 = roomsDelete rooms id := by
      rw [leaveRoomHandler_rooms_found ⟨some id, some P⟩ rooms id room rfl hg, if_pos he]
    rw [hpost]
    refine ⟨?_, ?_, ?_⟩
    · constructor
      · intro _ x hx
        have hnil := List.isEmpty_iff.mp he
        have h2 := List.filter_eq_nil_iff.mp hnil x hx
        simp only [bne_iff_ne, ne_eq, not_not, Option.some.injEq] at h2
        exact h2.symm
      · intro _
        exact roomsGet_delete_self rooms id
    · intro r' hr'
      rw [roomsGet_delete_self rooms id] at hr'
      exact Option.noConfusion hr'
    · intro id₂ hne
      exact roomsGet_delete_ne rooms id id₂ hne
  · have hpost : (leaveRoomHandler ⟨some id, some P⟩ rooms).2 =
        roomsSet rooms id
          { room with
            participants := room.participants.filter
              (fun p => (⟨some id, some P⟩ : RoomBody).walletAddress != some p) } := by
      rw [leaveRoomHandler_rooms_found ⟨some id, some P⟩ rooms id room rfl hg, if_neg he]
    rw [hpost]
    have hget := roomsGet_set_self rooms id
      { room with
        participants := room.participants.filter
          (fun p => (⟨some id, some P⟩ : RoomBody).walletAddress != some p) }
    refine ⟨?_, ?_, ?_⟩
    · constructor
      · intro hnone
        rw [hget] at hnone
        exact Option.noConfusion hnone
      · intro hall
        exfalso
        apply he
        rw [List.isEmpty_iff, List.filter_eq_nil_iff]
        intro x hx
        have := hall x hx
        subst this
        simp
    · intro r' hr'
      rw [hget] at hr'
      injection hr' with hr'
      subst hr'
      refine ⟨rfl, rfl, ?_, List.filter_sublist _, ?_⟩
      · intro hmem
        have hpred := List.of_mem_filter hmem
        simp at hpred
      · intro x hx
        apply List.count_filter
        rw [bne_iff_ne]
        intro hcon
        injection hcon with hcon
        exact hx hcon.symm
    · intro id₂ hne
      exact roomsGet_set_ne rooms id id₂ _ hne

/-- Witness: C10 on a two-participant room, wallet 0xA leaving. -/
theorem leaveRoom_removes_only_wallet_witness :
    (roomsGet (leaveRoomHandler ⟨some "R", some "0xA"⟩
        [("R", { id := "R", host := "0xH", participants := ["0xA", "0xB"], created := 3 })]).2
        "R" = none ↔
      ∀ x ∈ Room.participants
          { id := "R", host := "0xH", participants := ["0xA", "0xB"], created := 3 },
        x = "0xA") ∧
    (∀ r', roomsGet (leaveRoomHandler ⟨some "R", some "0xA"⟩
        [("R", { id := "R", host := "0xH", participants := ["0xA", "0xB"], created := 3 })]).2
        "R" = some r' →
      r'.host = Room.host
          { id := "R", host := "0xH", participants := ["0xA", "0xB"], created := 3 } ∧
      r'.created = Room.created
          { id := "R", host := "0xH", participants := ["0xA", "0xB"], created := 3 } ∧
      "0xA" ∉ r'.participants ∧
      r'.participants.Sublist (Room.participants
          { id := "R", host := "0xH", participants := ["0xA", "0xB"], created := 3 }) ∧
      ∀ x, x ≠ "0xA" → r'.participants.count x =
        (Room.participants
          { id := "R", host := "0xH", participants := ["0xA", "0xB"], created := 3 }).count x) ∧
    (∀ id₂, id₂ ≠ "R" →
      roomsGet (leaveRoomHandler ⟨some "R", some "0xA"⟩
          [("R", { id := "R", host := "0xH", participants := ["0xA", "0xB"], created := 3 })]).2
          id₂ =
        roomsGet
          [("R", { id := "R", host := "0xH", participants := ["0xA", "0xB"], created := 3 })]
          id₂) :=
  leaveRoom_removes_only_wallet "R" "0xA"
    [("R", { id := "R", host := "0xH", participants := ["0xA", "0xB"], created := 3 })]
    { id := "R", host := "0xH", participants := ["0xA", "0xB"], created := 3 }
    (by decide)

/-- A character of the uppercased base-36 alphabet. -/
abbrev isUpperBase36 (c : Char) : Prop :=
  ('0' ≤ c ∧ c ≤ '9') ∨ ('A' ≤ c ∧ c ≤ 'Z')

theorem base36Char_toUpper_mem : ∀ d : Fin 36, isUpperBase36 (Char.toUpper (base36Char d)) := by
  decide

theorem generateRoomId_data (digits : List (Fin 36)) :
    (generateRoomId digits).data =
      ((digits.map base36Char).take 10).map Char.toUpper := by
  cases digits <;> rfl

/-- C7 counterexample: Math.random can draw exactly 0.5, which prints as 0.i
in base 36, and the generated room id is then the single character I, not 10
characters. -/
theorem generateRoomId_not_always_length_ten :
    generateRoomId [(18 : Fin 36)] = "I" ∧
    (generateRoomId [(18 : Fin 36)]).length = 1 ∧
    ¬ (generateRoomId [(18 : Fin 36)]).length = 10 := by
  decide

/-- C7 amended: the group-room code generator always draws from the
uppercase base-36 alphabet, but its output has exactly
min(digits, 10) characters, where digits is the number of base-36 digits
toString(36) prints for the random draw: 10 whenever the draw's expansion
is at least 10 digits long, fewer otherwise. -/
theorem generateRoomId_shape (digits : List (Fin 36)) :
    (generateRoomId digits).length = min digits.length 10 ∧
    ∀ c ∈ (generateRoomId digits).data, isUpperBase36 c := by
  constructor
  · rw [← String.length_data, generateRoomId_data]
    simp [List.length_take, Nat.min_comm]
  · rw [generateRoomId_data]
    intro c hc
    rw [List.mem_map] at hc
    obtain ⟨b, hb, rfl⟩ := hc
    have hb2 : b ∈ digits.map base36Char := List.take_subset _ _ hb
    rw [List.mem_map] at hb2
    obtain ⟨d, _, rfl⟩ := hb2
    exact base36Char_toUpper_mem d
